import Mathlib

/-!
Verification development for the GridWorld engine (src/GridWorld.py).

The Python engine is shallowly embedded:
* positions are pairs of integers (row, col), sentinel (-1, -1) means unplaced;
* the global `random` module is embedded as an `Rng`: a stream of draws
  `stream : Nat → Nat` together with the index of the next draw;
  `random.randint(0, size - 1)` returns a value in `[0, size)`, embedded as
  one draw from the stream reduced modulo `size`; `random.seed(s)` replaces
  the stream by a pure function of the seed (`seedRng`);
* fallible operations (`_get_empty_pos` raising, the constructor assertion)
  return `Except String`;
* numpy arrays are embedded as total functions from indices to values, and a
  negative index `i` with `-size ≤ i < 0` selects cell `size + i` exactly as
  numpy does (`npIdx`).
-/

/-- A grid coordinate pair (row, col); `(-1, -1)` is the unplaced sentinel. -/
abbrev Pos := ℤ × ℤ

/-- The state of Python's global `random` module: the stream of future
`randint` draws and the index of the next one. -/
structure Rng where
  stream : ℕ → ℕ
  idx : ℕ

/-- Advance the RNG by `n` draws. -/
def advance (r : Rng) (n : ℕ) : Rng := ⟨r.stream, r.idx + n⟩

/-- Source `random.seed(s)`: the subsequent draw stream is a pure function of the
seed, given by the (otherwise unspecified) generator `prng`. -/
def seedRng (prng : ℕ → ℕ → ℕ) (s : ℕ) : Rng := ⟨prng s, 0⟩

/-- The `GridWorld.pieces` dictionary: Player, Goal, Walls, Holes. -/
structure Pieces where
  player : Pos
  goal : Pos
  walls : List Pos
  holes : List Pos
deriving DecidableEq

/-- The freshly cleared `pieces` dictionary (`clear_grid`, and the class-level
default): both single pieces unplaced, no walls, no holes. -/
def initPieces : Pieces := ⟨(-1, -1), (-1, -1), [], []⟩

/-- A `GridWorld` instance: its pieces and its configuration
(`size`, wall count `walls`, hole count `holes`).  The counts are integers
because the Python constructor accepts any int (`range(count)` is empty for
`count ≤ 0`). -/
structure GridWorld where
  pieces : Pieces
  size : ℕ
  walls : ℤ
  holes : ℤ
deriving DecidableEq

/-- Source `GridWorld.__init__(size, holes, walls, use_random, rand_seed)`:
asserts `size >= 4`; when `use_random` is false it seeds the global RNG with
`rand_seed`, otherwise the ambient RNG state `r` is kept.  The fresh instance
sees the class-level `pieces` default, i.e. `initPieces`. -/
def mkGridWorld (size : ℕ) (holes walls : ℤ) (useRandom : Bool) (randSeed : ℕ)
    (prng : ℕ → ℕ → ℕ) (r : Rng) : Except String (GridWorld × Rng) :=
  if 4 ≤ size then
    .ok (⟨initPieces, size, walls, holes⟩, if useRandom then r else seedRng prng randSeed)
  else
    .error "Size needs to be >= 4"

/-- Source `GridWorld._filled_pos(include_player)`: membership in the set of filled
positions.  The Python guard `include_player and self.pieces['Player']` always
takes the player branch when `include_player` is true, because the player is a
two-element tuple and hence truthy (even `(0, 0)`). -/
def filledContains (pc : Pieces) (includePlayer : Bool) (pos : Pos) : Bool :=
  (includePlayer && decide (pos = pc.player))
    || decide (pos ∈ pc.walls) || decide (pos ∈ pc.holes)

/-- Source `GridWorld._is_empty(pos)`: `pos not in self._filled_pos(include_player=True)`. -/
def isEmptyPos (pc : Pieces) (pos : Pos) : Bool :=
  !(filledContains pc true pos)

/-- Source `GridWorld._get_pos()`: two `randint(0, size - 1)` draws, each a stream
value reduced into `[0, size)`. -/
def getPos (size : ℕ) (r : Rng) : Pos × Rng :=
  (((r.stream r.idx % size : ℕ), (r.stream (r.idx + 1) % size : ℕ)), advance r 2)

/-- The `j`-th position (0-based) that `_get_pos` would produce starting from
RNG state `r`: draws `2*j` and `2*j + 1` of the stream. -/
def nthSample (size : ℕ) (r : Rng) (j : ℕ) : Pos :=
  ((r.stream (r.idx + 2 * j) % size : ℕ), (r.stream (r.idx + 2 * j + 1) % size : ℕ))

/-- The retry loop of `_get_empty_pos`: `while attempts <= 100 and not
is_empty(pos): attempts += 1; pos = get_pos()`.  `fuel` is `101 - attempts`,
so the loop body can still run exactly when `fuel > 0`; the returned first
component is the final `fuel` (`0` exactly when the Python loop exits with
`attempts > 100` and the exception is raised). -/
def getEmptyPosLoop (pc : Pieces) (size : ℕ) : ℕ → Pos → Rng → ℕ × Pos × Rng
  | 0, pos, r => (0, pos, r)
  | fuel + 1, pos, r =>
    if isEmptyPos pc pos then (fuel + 1, pos, r)
    else
      let pr := getPos size r
      getEmptyPosLoop pc size fuel pr.1 pr.2

/-- Source `GridWorld._get_empty_pos()`: one initial sample, then the retry loop;
raises `Exception('Too many attempts looking for empty position')` when the
loop exits with `attempts > 100`.  Note that on that failure path the loop has
already drawn one further sample that is never checked. -/
def getEmptyPos (pc : Pieces) (size : ℕ) (r : Rng) : Except String (Pos × Rng) :=
  let pr := getPos size r
  let res := getEmptyPosLoop pc size 101 pr.1 pr.2
  if res.1 = 0 then .error "Too many attempts looking for empty position"
  else .ok (res.2.1, res.2.2)

/-- Source `GridWorld.set_player(pos=None)` on the `pos=None` path taken by `reset`:
a random empty position becomes the player. -/
def setPlayerRandom (size : ℕ) (pc : Pieces) (r : Rng) : Except String (Pieces × Rng) :=
  match getEmptyPos pc size r with
  | .error e => .error e
  | .ok (pos, r') => .ok (⟨pos, pc.goal, pc.walls, pc.holes⟩, r')

/-- Source `GridWorld.add_goal()`: a random empty position becomes the goal. -/
def addGoal (size : ℕ) (pc : Pieces) (r : Rng) : Except String (Pieces × Rng) :=
  match getEmptyPos pc size r with
  | .error e => .error e
  | .ok (pos, r') => .ok (⟨pc.player, pos, pc.walls, pc.holes⟩, r')

/-- Source `GridWorld.add_walls(count)`: `count` times, append a random empty
position to the walls list. -/
def addWalls (size : ℕ) : ℕ → Pieces → Rng → Except String (Pieces × Rng)
  | 0, pc, r => .ok (pc, r)
  | n + 1, pc, r =>
    match getEmptyPos pc size r with
    | .error e => .error e
    | .ok (pos, r') => addWalls size n ⟨pc.player, pc.goal, pc.walls ++ [pos], pc.holes⟩ r'

/-- Source `GridWorld.add_holes(count)`: `count` times, append a random empty
position to the holes list. -/
def addHoles (size : ℕ) : ℕ → Pieces → Rng → Except String (Pieces × Rng)
  | 0, pc, r => .ok (pc, r)
  | n + 1, pc, r =>
    match getEmptyPos pc size r with
    | .error e => .error e
    | .ok (pos, r') => addHoles size n ⟨pc.player, pc.goal, pc.walls, pc.holes ++ [pos]⟩ r'

/-- Source `GridWorld.reset()`: clear the grid, then place walls, holes, goal and
player in that order.  The wall and hole counts go through `range`, which is
empty for non-positive counts (`Int.toNat`). -/
def reset (g : GridWorld) (r : Rng) : Except String (GridWorld × Rng) :=
  match addWalls g.size g.walls.toNat initPieces r with
  | .error e => .error e
  | .ok (pc1, r1) =>
    match addHoles g.size g.holes.toNat pc1 r1 with
    | .error e => .error e
    | .ok (pc2, r2) =>
      match addGoal g.size pc2 r2 with
      | .error e => .error e
      | .ok (pc3, r3) =>
        match setPlayerRandom g.size pc3 r3 with
        | .error e => .error e
        | .ok (pc4, r4) => .ok (⟨pc4, g.size, g.walls, g.holes⟩, r4)

/-- A movement intent: the four flags `[up, down, left, right]`, each an
arbitrary integer compared against `1` by `move_player`. -/
structure Intent where
  up : ℤ
  down : ℤ
  left : ℤ
  right : ℤ
deriving DecidableEq

/-- The candidate position computed by the `if/elif` chain of `move_player`:
the first flag equal to `1` (in the order up, down, left, right) shifts the
player one cell; with no flag set the candidate is the current cell. -/
def candidatePos (p : Pos) (a : Intent) : Pos :=
  if a.up = 1 then (p.1 - 1, p.2)
  else if a.down = 1 then (p.1 + 1, p.2)
  else if a.left = 1 then (p.1, p.2 - 1)
  else if a.right = 1 then (p.1, p.2 + 1)
  else p

/-- The index (0 = up, 1 = down, 2 = left, 3 = right, 4 = none) of the first
flag equal to `1`, i.e. the direction `move_player` resolves the intent to. -/
def firstDir (a : Intent) : ℕ :=
  if a.up = 1 then 0
  else if a.down = 1 then 1
  else if a.left = 1 then 2
  else if a.right = 1 then 3
  else 4

/-- Source `GridWorld._pos_out_of_bounds(pos)`: either coordinate outside `[0, size)`. -/
def posOutOfBounds (size : ℕ) (pos : Pos) : Bool :=
  !(decide (0 ≤ pos.1 ∧ pos.1 < size)) || !(decide (0 ≤ pos.2 ∧ pos.2 < size))

/-- Source `GridWorld.pos_on_wall(pos)`: the linear scan of the walls list is
membership. -/
def posOnWall (pc : Pieces) (pos : Pos) : Bool :=
  decide (pos ∈ pc.walls)

/-- Source `GridWorld.get_reward()`: +10/terminal at the goal, then -10/terminal in a
hole (linear scan), otherwise -1 and not terminal. -/
def getReward (pc : Pieces) : ℤ × Bool :=
  if pc.player = pc.goal then (10, true)
  else if pc.player ∈ pc.holes then (-10, true)
  else (-1, false)

/-- Source `GridWorld.move_player(action)`: compute the candidate cell from the first
set flag; if it is neither out of bounds nor on a wall the player moves there
(`set_player(new_pos)` with a truthy tuple just assigns), otherwise the player
stays put; then `get_reward()` is evaluated on the resulting pieces.  Returns
the updated world together with `(reward, terminal)`. -/
def movePlayer (g : GridWorld) (a : Intent) : GridWorld × ℤ × Bool :=
  let newPos := candidatePos g.pieces.player a
  let g' :=
    if posOutOfBounds g.size newPos || posOnWall g.pieces newPos then g
    else ⟨⟨newPos, g.pieces.goal, g.pieces.walls, g.pieces.holes⟩, g.size, g.walls, g.holes⟩
  (g', getReward g'.pieces)

/-- Apply a sequence of `move_player` calls, keeping only the world. -/
def applyMoves (g : GridWorld) : List Intent → GridWorld
  | [] => g
  | a :: rest => applyMoves (movePlayer g a).1 rest

/-- numpy indexing on an axis of length `size`: a negative index `i`
(with `-size ≤ i < 0`, the only negative value the engine produces is `-1`)
selects cell `size + i`. -/
def npIdx (size : ℕ) (i : ℤ) : ℕ :=
  (if i < 0 then i + size else i).toNat

/-- The array cell addressed by a (possibly negative) position. -/
def cellIdx (size : ℕ) (p : Pos) : ℕ × ℕ :=
  (npIdx size p.1, npIdx size p.2)

/-- One numpy 2-d assignment `a[p] = v`. -/
def writeCell (a : ℕ × ℕ → ℤ) (c : ℕ × ℕ) (v : ℤ) : ℕ × ℕ → ℤ :=
  fun c' => if c' = c then v else a c'

/-- Source `GridWorld.to_array()`: zeros, then write Player as 1, Goal as 4, each
Wall as 2, each Hole as 3 — in that order, so later writes win at a shared
cell. -/
def toArray (g : GridWorld) : ℕ × ℕ → ℤ :=
  let a0 : ℕ × ℕ → ℤ := fun _ => 0
  let a1 := writeCell a0 (cellIdx g.size g.pieces.player) 1
  let a2 := writeCell a1 (cellIdx g.size g.pieces.goal) 4
  let a3 := g.pieces.walls.foldl (fun a w => writeCell a (cellIdx g.size w) 2) a2
  g.pieces.holes.foldl (fun a h => writeCell a (cellIdx g.size h) 3) a3

/-- The module-level `render_map` symbol table (a dict lookup: `none` would be
a `KeyError`). -/
def renderMap (v : ℤ) : Option Char :=
  if v = 0 then some '.'
  else if v = 1 then some 'P'
  else if v = 2 then some '#'
  else if v = 3 then some 'O'
  else if v = 4 then some 'G'
  else none

/-- Source `GridWorld.render(raw=False)`: the character grid built row by row from
`to_array` through `render_map`, each row terminated by a newline. -/
def render (g : GridWorld) : Option String := do
  let rows ← (List.range g.size).mapM (fun y => do
    let cs ← (List.range g.size).mapM (fun x => renderMap (toArray g (y, x)))
    pure (String.mk cs ++ "\n"))
  pure (String.join rows)

/-- One assignment `state[l, y, x] = 1` into the stacked state tensor. -/
def stateWrite (a : ℕ → ℕ × ℕ → ℤ) (l : ℕ) (c : ℕ × ℕ) : ℕ → ℕ × ℕ → ℤ :=
  fun l' c' => if l' = l ∧ c' = c then 1 else a l' c'

/-- Source `GridWorld.get_state()`: a 4-layer tensor, zeros everywhere except a mark
for the Player (layer 0), Goal (layer 1), each Wall (layer 2) and each Hole
(layer 3). -/
def getState (g : GridWorld) : ℕ → ℕ × ℕ → ℤ :=
  let s0 : ℕ → ℕ × ℕ → ℤ := fun _ _ => 0
  let s1 := stateWrite s0 0 (cellIdx g.size g.pieces.player)
  let s2 := stateWrite s1 1 (cellIdx g.size g.pieces.goal)
  let s3 := g.pieces.walls.foldl (fun acc w => stateWrite acc 2 (cellIdx g.size w)) s2
  g.pieces.holes.foldl (fun acc h => stateWrite acc 3 (cellIdx g.size h)) s3

/-- Run a list of intents as the adapter's `step` does: move, then observe
state tensor, reward and terminal flag for every step. -/
def runIntents (g : GridWorld) : List Intent → List ((ℕ → ℕ × ℕ → ℤ) × ℤ × Bool)
  | [] => []
  | a :: rest =>
    let res := movePlayer g a
    (getState res.1, res.2.1, res.2.2) :: runIntents res.1 rest

/-- A full deterministic episode: construct with `use_random=False` (so the
seed is applied), reset, then run the intents; `none` when construction or
reset fails.  Records the reset observation and every step observation. -/
def episode (size : ℕ) (holes walls : ℤ) (randSeed : ℕ) (prng : ℕ → ℕ → ℕ)
    (r : Rng) (intents : List Intent) :
    Option ((ℕ → ℕ × ℕ → ℤ) × List ((ℕ → ℕ × ℕ → ℤ) × ℤ × Bool)) :=
  match mkGridWorld size holes walls false randSeed prng r with
  | .error _ => none
  | .ok (g, r1) =>
    match reset g r1 with
    | .error _ => none
    | .ok (g1, _) => some (getState g1, runIntents g1 intents)

/-- Observation wrapper: the pieces after one successful `reset`. -/
def resetWorld (g : GridWorld) (r : Rng) : Option GridWorld :=
  match reset g r with
  | .ok (g', _) => some g'
  | .error _ => none

/-- Observation wrapper: the pieces after a first and after a second `reset`
of the same engine (the second continues from the RNG state the first left). -/
def resetTwice (g : GridWorld) (r : Rng) : Option (Pieces × Pieces) :=
  match reset g r with
  | .ok (g1, r1) =>
    match reset g1 r1 with
    | .ok (g2, _) => some (g1.pieces, g2.pieces)
    | .error _ => none
  | .error _ => none

/-- Observation wrapper: construct, then reset, yielding the placed pieces. -/
def constructReset (size : ℕ) (holes walls : ℤ) (useRandom : Bool) (randSeed : ℕ)
    (prng : ℕ → ℕ → ℕ) (r : Rng) : Option Pieces :=
  match mkGridWorld size holes walls useRandom randSeed prng r with
  | .error _ => none
  | .ok (g, r1) =>
    match reset g r1 with
    | .error _ => none
    | .ok (g1, _) => some g1.pieces

/-- The separation property that actually holds of every reachable world:
walls and holes are mutually distinct, the goal is on none of them, and the
player is never on a wall.  (The player may share a cell with the goal or a
hole.) -/
def SepInv (pc : Pieces) : Prop :=
  (pc.walls ++ pc.holes).Nodup ∧ pc.goal ∉ pc.walls ∧ pc.goal ∉ pc.holes ∧
    pc.player ∉ pc.walls

/-! Concrete worlds and streams used by witnesses and counterexamples. -/

/-- A 6x6 world mid-episode: player, goal, one wall, one hole, all distinct. -/
def exWorld : GridWorld := ⟨⟨(1, 1), (3, 3), [(2, 2)], [(0, 3)]⟩, 6, 1, 1⟩

/-- A 6x6 world whose player already sits on the goal cell. -/
def overlapWorld : GridWorld := ⟨⟨(0, 0), (0, 0), [], []⟩, 6, 1, 1⟩

/-- A 6x6 world with the player at the top-left corner, goal elsewhere. -/
def borderWorld : GridWorld := ⟨⟨(0, 0), (2, 2), [], []⟩, 6, 1, 1⟩

/-- Source `move_player` and `get_reward`: the returned pair is `get_reward` of the
post-move pieces. -/
lemma movePlayer_snd (g : GridWorld) (a : Intent) :
    (movePlayer g a).2 = getReward (movePlayer g a).1.pieces := rfl

/-- Source `move_player` never changes the goal, the walls, the holes, the size or
the configuration counts. -/
lemma movePlayer_frame (g : GridWorld) (a : Intent) :
    (movePlayer g a).1.pieces.goal = g.pieces.goal ∧
    (movePlayer g a).1.pieces.walls = g.pieces.walls ∧
    (movePlayer g a).1.pieces.holes = g.pieces.holes ∧
    (movePlayer g a).1.size = g.size := by
  unfold movePlayer
  dsimp only
  split <;> exact ⟨rfl, rfl, rfl, rfl⟩

/-- C1.  For every state, `move_player` evaluates reward and termination
against the player's position after the move attempt (whether moved or
bounced): on the goal the result is `(+10, true)`, else in any hole
`(-10, true)`, otherwise `(-1, false)`; the goal and hole positions it is
compared against are unchanged by the move. -/
theorem move_player_reward_policy (g : GridWorld) (a : Intent) :
    (movePlayer g a).1.pieces.goal = g.pieces.goal ∧
    (movePlayer g a).1.pieces.holes = g.pieces.holes ∧
    (movePlayer g a).2 =
      (if (movePlayer g a).1.pieces.player = g.pieces.goal then ((10 : ℤ), true)
       else if (movePlayer g a).1.pieces.player ∈ g.pieces.holes then ((-10 : ℤ), true)
       else ((-1 : ℤ), false)) := by
  obtain ⟨hg, hw, hh, _⟩ := movePlayer_frame g a
  refine ⟨hg, hh, ?_⟩
  rw [movePlayer_snd]
  unfold getReward
  rw [hg, hh]

/-- Auxiliary congruence: the candidate cell only depends on the first set
flag of the intent. -/
lemma candidatePos_congr (p : Pos) (a b : Intent) (h : firstDir a = firstDir b) :
    candidatePos p a = candidatePos p b := by
  unfold firstDir at h
  unfold candidatePos
  split_ifs at h ⊢ <;> first | rfl | omega

/-- C7.  `move_player` resolves an intent with several flags set exactly as
the intent with only its first set flag: whenever two intents agree on the
first flag equal to 1 in the order [up, down, left, right], the resulting
state, reward and terminal flag coincide. -/
theorem intent_priority (g : GridWorld) (a b : Intent) (h : firstDir a = firstDir b) :
    movePlayer g a = movePlayer g b := by
  unfold movePlayer
  rw [candidatePos_congr g.pieces.player a b h]

/-- Witness for C7: `[1,0,1,0]` resolves exactly as `[1,0,0,0]`. -/
theorem intent_priority_witness :
    movePlayer exWorld ⟨1, 0, 1, 0⟩ = movePlayer exWorld ⟨1, 0, 0, 0⟩ :=
  intent_priority exWorld ⟨1, 0, 1, 0⟩ ⟨1, 0, 0, 0⟩ (by decide)

/-- Counterexample to C3 as stated: in a state whose player already sits on
the goal cell (reachable, since `reset` does not exclude the goal from the
player's occupancy check), an out-of-bounds intent bounces but returns
`(+10, true)`, not `(-1, false)`. -/
theorem bounce_not_always_minus_one :
    movePlayer overlapWorld ⟨1, 0, 0, 0⟩ = (overlapWorld, 10, true) := by decide

/-- C3 (amended).  If the chosen direction's candidate cell is out of bounds
or on a wall, and the player is not already on the goal or in a hole, then
`move_player` leaves the whole state unchanged and returns `(-1, false)`. -/
theorem bounce_leaves_state (g : GridWorld) (a : Intent)
    (hblock : posOutOfBounds g.size (candidatePos g.pieces.player a) = true ∨
      posOnWall g.pieces (candidatePos g.pieces.player a) = true)
    (hgoal : g.pieces.player ≠ g.pieces.goal)
    (hhole : g.pieces.player ∉ g.pieces.holes) :
    movePlayer g a = (g, -1, false) := by
  have hcond : (posOutOfBounds g.size (candidatePos g.pieces.player a) ||
      posOnWall g.pieces (candidatePos g.pieces.player a)) = true := by
    rcases hblock with h | h <;> simp [h]
  unfold movePlayer
  dsimp only
  rw [hcond]
  simp only [if_true]
  unfold getReward
  rw [if_neg hgoal, if_neg hhole]

/-- Witness for C3 (amended), and the claim's concrete scenario: player at
`(0,0)` on a 6x6 grid, intent `[1,0,0,0]` — the candidate `(-1,0)` is out of
bounds, the player stays, reward `-1`, terminal `false`. -/
theorem bounce_leaves_state_witness :
    movePlayer borderWorld ⟨1, 0, 0, 0⟩ = (borderWorld, -1, false) :=
  bounce_leaves_state borderWorld ⟨1, 0, 0, 0⟩ (Or.inl (by decide)) (by decide) (by decide)

/-- Folding repeated `writeCell` assignments of one value: the cell holds that
value iff some list element addresses it, else the previous contents. -/
lemma foldl_writeCell (size : ℕ) (v : ℤ) (l : List Pos) (a : ℕ × ℕ → ℤ) (c : ℕ × ℕ) :
    (l.foldl (fun acc w => writeCell acc (cellIdx size w) v) a) c =
      if ∃ w ∈ l, c = cellIdx size w then v else a c := by
  induction l generalizing a with
  | nil => simp
  | cons hd tl ih =>
    rw [List.foldl_cons, ih]
    by_cases hc : c = cellIdx size hd <;>
      by_cases ht : ∃ w ∈ tl, c = cellIdx size w <;>
        simp [writeCell, hc, ht]

/-- C9 (amended).  `to_array` is the pure projection assigning each cell the
code of the entity written last there: holes (3) over walls (2) over the goal
(4) over the player (1) over empty (0) — so at a cell where the player
coincides with the goal or a hole, the goal/hole code, not the player's,
shows.  The symbol table maps the codes to `.`, `P`, `#`, `O`, `G`. -/
theorem to_array_cells (g : GridWorld) (c : ℕ × ℕ) :
    toArray g c =
      (if ∃ h ∈ g.pieces.holes, c = cellIdx g.size h then 3
       else if ∃ w ∈ g.pieces.walls, c = cellIdx g.size w then 2
       else if c = cellIdx g.size g.pieces.goal then 4
       else if c = cellIdx g.size g.pieces.player then 1
       else 0) ∧
    renderMap 0 = some '.' ∧ renderMap 1 = some 'P' ∧ renderMap 2 = some '#' ∧
    renderMap 3 = some 'O' ∧ renderMap 4 = some 'G' := by
  refine ⟨?_, by decide, by decide, by decide, by decide, by decide⟩
  unfold toArray
  rw [foldl_writeCell, foldl_writeCell]
  unfold writeCell
  rfl

/-- Counterexample to C9 as stated: when the player coincides with the goal,
`to_array` shows the goal's code 4 (symbol `G`) at that cell, not the
player's — the player does not take visual precedence. -/
theorem goal_code_over_player :
    toArray overlapWorld (0, 0) = 4 ∧ renderMap 4 = some 'G' := by decide

/-- Writes into one layer of the state tensor do not affect other layers. -/
lemma foldl_stateWrite_ne (size : ℕ) (lw : ℕ) (l : List Pos) (a : ℕ → ℕ × ℕ → ℤ)
    (l' : ℕ) (c : ℕ × ℕ) (h : l' ≠ lw) :
    (l.foldl (fun acc p => stateWrite acc lw (cellIdx size p)) a) l' c = a l' c := by
  induction l generalizing a with
  | nil => rfl
  | cons hd tl ih =>
    rw [List.foldl_cons, ih]
    simp [stateWrite, h]

/-- numpy index -1 selects the last cell of an axis. -/
lemma npIdx_neg_one (size : ℕ) (h : 1 ≤ size) : npIdx size (-1) = size - 1 := by
  unfold npIdx
  rw [if_pos (by omega : (-1 : ℤ) < 0)]
  omega

/-- C10.  `get_state` on a world whose player (resp. goal) still holds the
unplaced sentinel `(-1, -1)` does not fail: the negative indices wrap, and the
entity's mark lands at cell `(size - 1, size - 1)` of its layer. -/
theorem sentinel_wraps (g : GridWorld) (hsz : 1 ≤ g.size) :
    (g.pieces.player = (-1, -1) → getState g 0 (g.size - 1, g.size - 1) = 1) ∧
    (g.pieces.goal = (-1, -1) → getState g 1 (g.size - 1, g.size - 1) = 1) := by
  constructor
  · intro hp
    have hc : cellIdx g.size g.pieces.player = (g.size - 1, g.size - 1) := by
      rw [hp]
      unfold cellIdx
      rw [npIdx_neg_one g.size hsz]
    unfold getState
    rw [foldl_stateWrite_ne g.size 3 g.pieces.holes _ 0 _ (by decide)]
    rw [foldl_stateWrite_ne g.size 2 g.pieces.walls _ 0 _ (by decide)]
    simp [stateWrite, hc]
  · intro hg
    have hc : cellIdx g.size g.pieces.goal = (g.size - 1, g.size - 1) := by
      rw [hg]
      unfold cellIdx
      rw [npIdx_neg_one g.size hsz]
    unfold getState
    rw [foldl_stateWrite_ne g.size 3 g.pieces.holes _ 1 _ (by decide)]
    rw [foldl_stateWrite_ne g.size 2 g.pieces.walls _ 1 _ (by decide)]
    simp [stateWrite, hc]

/-- A freshly constructed 6x6 engine before any `reset`: class-level default
pieces, both sentinels unplaced. -/
def freshWorld : GridWorld := ⟨initPieces, 6, 1, 1⟩

/-- Witness for C10: before the first reset of a 6x6 engine, both the player
and the goal marks of `get_state` sit at cell `(5, 5)`. -/
theorem sentinel_wraps_witness :
    getState freshWorld 0 (5, 5) = 1 ∧ getState freshWorld 1 (5, 5) = 1 :=
  ⟨(sentinel_wraps freshWorld (by decide)).1 rfl, (sentinel_wraps freshWorld (by decide)).2 rfl⟩

/-! RNG bookkeeping lemmas. -/

lemma advance_advance (r : Rng) (a b : ℕ) : advance (advance r a) b = advance r (a + b) := by
  simp [advance, Nat.add_assoc]

lemma getPos_eq (size : ℕ) (r : Rng) : getPos size r = (nthSample size r 0, advance r 2) := by
  simp [getPos, nthSample]

lemma nthSample_advance (size : ℕ) (r : Rng) (j : ℕ) :
    nthSample size (advance r 2) j = nthSample size r (j + 1) := by
  have h1 : r.idx + 2 + 2 * j = r.idx + 2 * (j + 1) := by ring
  simp only [nthSample, advance]
  rw [h1]

/-- Membership reading of `_is_empty`. -/
lemma isEmptyPos_iff (pc : Pieces) (pos : Pos) :
    isEmptyPos pc pos = true ↔ pos ≠ pc.player ∧ pos ∉ pc.walls ∧ pos ∉ pc.holes := by
  simp [isEmptyPos, filledContains, not_or, and_assoc]

/-- If the retry loop exits with fuel left, the position it returns is empty. -/
lemma loop_result_empty (pc : Pieces) (size : ℕ) :
    ∀ fuel pos r, (getEmptyPosLoop pc size fuel pos r).1 ≠ 0 →
      isEmptyPos pc (getEmptyPosLoop pc size fuel pos r).2.1 = true := by
  intro fuel
  induction fuel with
  | zero => intro pos r h; simp [getEmptyPosLoop] at h
  | succ fuel ih =>
    intro pos r h
    by_cases he : isEmptyPos pc pos
    · simp [getEmptyPosLoop, he]
    · have he' : isEmptyPos pc pos = false := by simpa using he
      simp only [getEmptyPosLoop, he', Bool.false_eq_true, if_false] at h ⊢
      exact ih _ _ h

/-- A successful `_get_empty_pos` returns an empty position. -/
lemma getEmptyPos_ok (pc : Pieces) (size : ℕ) (r : Rng) (pos : Pos) (r' : Rng)
    (h : getEmptyPos pc size r = .ok (pos, r')) : isEmptyPos pc pos = true := by
  unfold getEmptyPos at h
  by_cases h0 : (getEmptyPosLoop pc size 101 (getPos size r).1 (getPos size r).2).1 = 0
  · rw [if_pos h0] at h
    cases h
  · rw [if_neg h0] at h
    simp only [Except.ok.injEq, Prod.mk.injEq] at h
    rw [← h.1]
    exact loop_result_empty pc size 101 _ _ h0

/-- Full characterisation of a successful retry loop run: either the incoming
position is already empty and nothing is consumed, or the result is the first
empty resample, obtained after consuming two draws per discarded sample. -/
lemma loop_success (pc : Pieces) (size : ℕ) :
    ∀ fuel pos r, (getEmptyPosLoop pc size fuel pos r).1 ≠ 0 →
      (isEmptyPos pc pos = true ∧ getEmptyPosLoop pc size fuel pos r = (fuel, pos, r)) ∨
      (isEmptyPos pc pos = false ∧ ∃ j, j + 2 ≤ fuel ∧
        (getEmptyPosLoop pc size fuel pos r).2.1 = nthSample size r j ∧
        isEmptyPos pc (nthSample size r j) = true ∧
        (∀ i < j, isEmptyPos pc (nthSample size r i) = false) ∧
        (getEmptyPosLoop pc size fuel pos r).2.2 = advance r (2 * (j + 1))) := by
  intro fuel
  induction fuel with
  | zero => intro pos r h; simp [getEmptyPosLoop] at h
  | succ fuel ih =>
    intro pos r h
    by_cases he : isEmptyPos pc pos
    · left
      exact ⟨he, by simp [getEmptyPosLoop, he]⟩
    · right
      have he' : isEmptyPos pc pos = false := by simpa using he
      refine ⟨he', ?_⟩
      have hstep : getEmptyPosLoop pc size (fuel + 1) pos r
          = getEmptyPosLoop pc size fuel (nthSample size r 0) (advance r 2) := by
        simp [getEmptyPosLoop, he', getPos_eq]
      rw [hstep] at h ⊢
      rcases ih (nthSample size r 0) (advance r 2) h with ⟨he0, heq⟩ |
          ⟨he0, j, hj, hpos, hemp, hall, hrng⟩
      · have hfuel : fuel ≠ 0 := by
          rw [heq] at h
          simpa using h
        refine ⟨0, by omega, ?_, ?_, ?_, ?_⟩
        · rw [heq]
        · exact he0
        · intro i hi; omega
        · rw [heq]
      · refine ⟨j + 1, by omega, ?_, ?_, ?_, ?_⟩
        · rw [hpos, nthSample_advance]
        · rw [← nthSample_advance]; exact hemp
        · intro i hi
          match i with
          | 0 => exact he0
          | i' + 1 =>
            rw [← nthSample_advance]
            exact hall i' (by omega)
        · rw [hrng, advance_advance]
          have : 2 + 2 * (j + 1) = 2 * (j + 1 + 1) := by ring
          rw [this]

/-- If every checked sample is occupied, the retry loop runs out of fuel,
consuming two draws per iteration. -/
lemma loop_fail (pc : Pieces) (size : ℕ) :
    ∀ fuel pos r, (fuel ≠ 0 → isEmptyPos pc pos = false) →
      (∀ j, j + 1 < fuel → isEmptyPos pc (nthSample size r j) = false) →
      (getEmptyPosLoop pc size fuel pos r).1 = 0 ∧
      (getEmptyPosLoop pc size fuel pos r).2.2 = advance r (2 * fuel) := by
  intro fuel
  induction fuel with
  | zero => intro pos r _ _; exact ⟨rfl, rfl⟩
  | succ fuel ih =>
    intro pos r hpos hall
    have he' : isEmptyPos pc pos = false := hpos (by omega)
    have hstep : getEmptyPosLoop pc size (fuel + 1) pos r
        = getEmptyPosLoop pc size fuel (nthSample size r 0) (advance r 2) := by
      simp [getEmptyPosLoop, he', getPos_eq]
    rw [hstep]
    have hrec := ih (nthSample size r 0) (advance r 2)
      (fun hf => hall 0 (by omega))
      (fun j hj => by rw [nthSample_advance]; exact hall (j + 1) (by omega))
    refine ⟨hrec.1, ?_⟩
    rw [hrec.2, advance_advance]
    have : 2 + 2 * fuel = 2 * (fuel + 1) := by ring
    rw [this]

/-- When the first 101 sampled positions are all occupied, `_get_empty_pos`
raises, and the loop has advanced the RNG by 204 draws past the initial
sample's start — i.e. 102 sampled positions in total, the last never
checked. -/
lemma getEmptyPos_error_of_all (pc : Pieces) (size : ℕ) (r : Rng)
    (hall : ∀ j ≤ 100, isEmptyPos pc (nthSample size r j) = false) :
    getEmptyPos pc size r = .error "Too many attempts looking for empty position" ∧
    (getEmptyPosLoop pc size 101 (nthSample size r 0) (advance r 2)).2.2 =
      advance r 204 := by
  have hf := loop_fail pc size 101 (nthSample size r 0) (advance r 2)
    (fun _ => hall 0 (by omega))
    (fun j hj => by rw [nthSample_advance]; exact hall (j + 1) (by omega))
  constructor
  · unfold getEmptyPos
    rw [getPos_eq]
    simp only [hf.1, if_pos]
  · rw [hf.2, advance_advance]

/-- A pieces dictionary that leaves no empty cell on a 1x1 grid. -/
def crowdedPieces : Pieces := ⟨(-1, -1), (-1, -1), [(0, 0)], []⟩

/-- The all-zero draw stream at index 0. -/
def zeroStream : Rng := ⟨fun _ => 0, 0⟩

/-- C4 (amended).  `_get_empty_pos` checks at most 101 sampled positions
(the initial sample plus at most 100 checked retries): on success it returns
the first sampled cell not in the occupied set, having consumed two RNG draws
per sample; when all 101 checked samples are occupied it fails with the
too-many-attempts error — but on that failure path the loop has drawn one
further, never-checked sample, for 102 sampled positions (204 draws) in
total. -/
theorem allocator_contract (pc : Pieces) (size : ℕ) (r : Rng) :
    (∀ pos r', getEmptyPos pc size r = .ok (pos, r') →
      isEmptyPos pc pos = true ∧ ∃ k, k ≤ 100 ∧ pos = nthSample size r k ∧
        (∀ i < k, isEmptyPos pc (nthSample size r i) = false) ∧
        r' = advance r (2 * (k + 1))) ∧
    ((∀ j, j ≤ 100 → isEmptyPos pc (nthSample size r j) = false) →
      getEmptyPos pc size r = .error "Too many attempts looking for empty position" ∧
      (getEmptyPosLoop pc size 101 (nthSample size r 0) (advance r 2)).2.2 =
        advance r 204) := by
  constructor
  · intro pos r' hok
    unfold getEmptyPos at hok
    rw [getPos_eq] at hok
    by_cases h0 : (getEmptyPosLoop pc size 101 (nthSample size r 0) (advance r 2)).1 = 0
    · rw [if_pos h0] at hok
      cases hok
    · rw [if_neg h0] at hok
      simp only [Except.ok.injEq, Prod.mk.injEq] at hok
      obtain ⟨hp, hr⟩ := hok
      rcases loop_success pc size 101 (nthSample size r 0) (advance r 2) h0 with
          ⟨he0, heq⟩ | ⟨he0, j, hj, hpos, hemp, hall, hrng⟩
      · refine ⟨?_, 0, by omega, ?_, ?_, ?_⟩
        · rw [← hp, heq]; exact he0
        · rw [← hp, heq]
        · intro i hi; omega
        · rw [← hr, heq]
      · refine ⟨?_, j + 1, by omega, ?_, ?_, ?_⟩
        · rw [← hp, hpos]; exact hemp
        · rw [← hp, hpos, nthSample_advance]
        · intro i hi
          match i with
          | 0 => exact he0
          | i' + 1 =>
            rw [← nthSample_advance]
            exact hall i' (by omega)
        · rw [← hr, hrng, advance_advance]
          have : 2 + 2 * (j + 1) = 2 * (j + 1 + 1) := by ring
          rw [this]
  · exact getEmptyPos_error_of_all pc size r

/-- Witness for C4 (amended): on a fully occupied 1x1 grid the allocator
raises the too-many-attempts error. -/
theorem allocator_contract_witness :
    getEmptyPos crowdedPieces 1 zeroStream =
      .error "Too many attempts looking for empty position" :=
  ((allocator_contract crowdedPieces 1 zeroStream).2
    (fun j hj => by simp [nthSample, zeroStream, isEmptyPos, filledContains, crowdedPieces])).1

/-- Counterexample to C4 as stated ("at most 101 attempts total: 1 initial
sample plus up to 100 retries"): on the failure path the loop exhausts its
fuel and leaves the RNG at index 204, i.e. 102 sampled positions of two draws
each — one more sample (and one more retry, 101 of them) than claimed. -/
theorem allocator_extra_draw :
    (getEmptyPosLoop crowdedPieces 1 101 (0, 0) (advance zeroStream 2)).1 = 0 ∧
    (getEmptyPosLoop crowdedPieces 1 101 (0, 0) (advance zeroStream 2)).2.2.idx = 204 := by
  constructor
  · decide
  · decide

/-- Inserting a fresh element between two lists keeps them duplicate-free. -/
lemma nodup_insert_between (l₁ l₂ : List Pos) (p : Pos) (h : (l₁ ++ l₂).Nodup)
    (h1 : p ∉ l₁) (h2 : p ∉ l₂) : (l₁ ++ [p] ++ l₂).Nodup := by
  rw [List.append_assoc, List.singleton_append, List.nodup_middle, List.nodup_cons]
  exact ⟨by simp [List.mem_append, h1, h2], h⟩

/-- Appending a fresh element keeps a list duplicate-free. -/
lemma nodup_append_singleton (l : List Pos) (p : Pos) (h : l.Nodup) (hp : p ∉ l) :
    (l ++ [p]).Nodup := by
  simp [List.nodup_append, h, hp]

/-- Source `add_walls` only appends to the walls list, each new wall avoiding every
wall and hole placed so far. -/
lemma addWalls_inv (size : ℕ) :
    ∀ n pc r pc' r', addWalls size n pc r = .ok (pc', r') →
      pc'.player = pc.player ∧ pc'.goal = pc.goal ∧ pc'.holes = pc.holes ∧
      ((pc.walls ++ pc.holes).Nodup → (pc'.walls ++ pc'.holes).Nodup) := by
  intro n
  induction n with
  | zero =>
    intro pc r pc' r' h
    simp only [addWalls, Except.ok.injEq, Prod.mk.injEq] at h
    rw [← h.1]
    exact ⟨rfl, rfl, rfl, fun hn => hn⟩
  | succ n ih =>
    intro pc r pc' r' h
    rw [addWalls] at h
    cases hg : getEmptyPos pc size r with
    | error e => rw [hg] at h; cases h
    | ok pr =>
      obtain ⟨pos, r1⟩ := pr
      rw [hg] at h
      have hempty := (isEmptyPos_iff pc pos).1 (getEmptyPos_ok pc size r pos r1 hg)
      obtain ⟨hp, hg2, hh, hn⟩ := ih _ _ _ _ h
      refine ⟨hp, hg2, hh, fun hnd => hn ?_⟩
      exact nodup_insert_between pc.walls pc.holes pos hnd hempty.2.1 hempty.2.2

/-- Source `add_holes` only appends to the holes list, each new hole avoiding every
wall and hole placed so far. -/
lemma addHoles_inv (size : ℕ) :
    ∀ n pc r pc' r', addHoles size n pc r = .ok (pc', r') →
      pc'.player = pc.player ∧ pc'.goal = pc.goal ∧ pc'.walls = pc.walls ∧
      ((pc.walls ++ pc.holes).Nodup → (pc'.walls ++ pc'.holes).Nodup) := by
  intro n
  induction n with
  | zero =>
    intro pc r pc' r' h
    simp only [addHoles, Except.ok.injEq, Prod.mk.injEq] at h
    rw [← h.1]
    exact ⟨rfl, rfl, rfl, fun hn => hn⟩
  | succ n ih =>
    intro pc r pc' r' h
    rw [addHoles] at h
    cases hg : getEmptyPos pc size r with
    | error e => rw [hg] at h; cases h
    | ok pr =>
      obtain ⟨pos, r1⟩ := pr
      rw [hg] at h
      have hempty := (isEmptyPos_iff pc pos).1 (getEmptyPos_ok pc size r pos r1 hg)
      obtain ⟨hp, hg2, hw, hn⟩ := ih _ _ _ _ h
      refine ⟨hp, hg2, hw, fun hnd => hn ?_⟩
      rw [← List.append_assoc]
      refine nodup_append_singleton _ pos hnd ?_
      simp only [List.mem_append, not_or]
      exact ⟨hempty.2.1, hempty.2.2⟩

/-- Source `add_goal` sets the goal to an empty position and touches nothing else. -/
lemma addGoal_spec (size : ℕ) (pc : Pieces) (r : Rng) (pc' : Pieces) (r' : Rng)
    (h : addGoal size pc r = .ok (pc', r')) :
    ∃ pos, isEmptyPos pc pos = true ∧ pc' = ⟨pc.player, pos, pc.walls, pc.holes⟩ := by
  rw [addGoal] at h
  cases hg : getEmptyPos pc size r with
  | error e => rw [hg] at h; cases h
  | ok pr =>
    obtain ⟨pos, r1⟩ := pr
    rw [hg] at h
    simp only [Except.ok.injEq, Prod.mk.injEq] at h
    exact ⟨pos, getEmptyPos_ok pc size r pos r1 hg, h.1.symm⟩

/-- Source `set_player()` (random path) sets the player to an empty position and
touches nothing else. -/
lemma setPlayerRandom_spec (size : ℕ) (pc : Pieces) (r : Rng) (pc' : Pieces) (r' : Rng)
    (h : setPlayerRandom size pc r = .ok (pc', r')) :
    ∃ pos, isEmptyPos pc pos = true ∧ pc' = ⟨pos, pc.goal, pc.walls, pc.holes⟩ := by
  rw [setPlayerRandom] at h
  cases hg : getEmptyPos pc size r with
  | error e => rw [hg] at h; cases h
  | ok pr =>
    obtain ⟨pos, r1⟩ := pr
    rw [hg] at h
    simp only [Except.ok.injEq, Prod.mk.injEq] at h
    exact ⟨pos, getEmptyPos_ok pc size r pos r1 hg, h.1.symm⟩

/-- A successful `reset` establishes the separation property. -/
lemma reset_inv (g g' : GridWorld) (r r' : Rng) (h : reset g r = .ok (g', r')) :
    SepInv g'.pieces := by
  rw [reset] at h
  cases h1 : addWalls g.size g.walls.toNat initPieces r with
  | error e => rw [h1] at h; cases h
  | ok pr1 =>
    obtain ⟨pc1, r1⟩ := pr1
    rw [h1] at h
    dsimp only at h
    cases h2 : addHoles g.size g.holes.toNat pc1 r1 with
    | error e => rw [h2] at h; cases h
    | ok pr2 =>
      obtain ⟨pc2, r2⟩ := pr2
      rw [h2] at h
      dsimp only at h
      cases h3 : addGoal g.size pc2 r2 with
      | error e => rw [h3] at h; cases h
      | ok pr3 =>
        obtain ⟨pc3, r3⟩ := pr3
        rw [h3] at h
        dsimp only at h
        cases h4 : setPlayerRandom g.size pc3 r3 with
        | error e => rw [h4] at h; cases h
        | ok pr4 =>
          obtain ⟨pc4, r4⟩ := pr4
          rw [h4] at h
          simp only [Except.ok.injEq, Prod.mk.injEq] at h
          obtain ⟨hw1, hw2, hw3, hwn⟩ := addWalls_inv g.size _ _ _ _ _ h1
          obtain ⟨hh1, hh2, hh3, hhn⟩ := addHoles_inv g.size _ _ _ _ _ h2
          obtain ⟨gpos, hgemp, hgeq⟩ := addGoal_spec g.size _ _ _ _ h3
          obtain ⟨ppos, hpemp, hpeq⟩ := setPlayerRandom_spec g.size _ _ _ _ h4
          have hnodup : (pc2.walls ++ pc2.holes).Nodup := by
            apply hhn
            exact hwn (by simp [initPieces])
          have hgm := (isEmptyPos_iff pc2 gpos).1 hgemp
          have hpm := (isEmptyPos_iff pc3 ppos).1 hpemp
          have hg' : g'.pieces = pc4 := by rw [← h.1]
          rw [hg', hpeq, hgeq]
          rw [hgeq] at hpm
          exact ⟨hnodup, hgm.2.1, hgm.2.2, hpm.2.1⟩

/-- Source `move_player` preserves the separation property: walls, holes and goal
never move, and the player never moves onto a wall. -/
lemma movePlayer_sep (g : GridWorld) (a : Intent) (h : SepInv g.pieces) :
    SepInv (movePlayer g a).1.pieces := by
  unfold movePlayer
  dsimp only
  split
  · exact h
  · rename_i hcond
    have hw : candidatePos g.pieces.player a ∉ g.pieces.walls := by
      intro hmem
      exact hcond (by simp [posOnWall, hmem])
    obtain ⟨h1, h2, h3, _⟩ := h
    exact ⟨h1, h2, h3, hw⟩

/-- C5 (amended).  In every reachable world — any successful `reset` followed
by any sequence of `move_player` calls — the goal, the walls and the holes
are pairwise distinct and the player is on no wall; the player, however, may
come to share a cell with the goal or a hole. -/
theorem reachable_separation (g g' : GridWorld) (r r' : Rng) (moves : List Intent)
    (h : reset g r = .ok (g', r')) : SepInv (applyMoves g' moves).pieces := by
  have h0 : SepInv g'.pieces := reset_inv g g' r r' h
  clear h
  induction moves generalizing g' with
  | nil => exact h0
  | cons a rest ih => exact ih (movePlayer g' a).1 (movePlayer_sep g' a h0)

/-- A 4x4 engine with one wall and one hole, before reset. -/
def seedWorld : GridWorld := ⟨initPieces, 4, 1, 1⟩

/-- A 4x4 engine with no walls and no holes, before reset. -/
def bareWorld : GridWorld := ⟨initPieces, 4, 0, 0⟩

/-- A draw stream that places the wall at (0,0), the hole at (1,1), the goal
at (2,2) and the player at (3,3) on a 4x4 grid. -/
def stepStream : Rng := ⟨fun i => [0, 0, 1, 1, 2, 2, 3, 3].getD i 0, 0⟩

/-- A draw stream that, on `bareWorld`, places the goal at (0,0) and the
player at (0,1). -/
def driftStream : Rng := ⟨fun i => [0, 0, 0, 1].getD i 0, 0⟩

/-- Witness for C5 (amended): a concrete successful reset followed by a
concrete move satisfies the separation property. -/
theorem reachable_separation_witness :
    SepInv (applyMoves ⟨⟨(3, 3), (2, 2), [(0, 0)], [(1, 1)]⟩, 4, 1, 1⟩ [⟨1, 0, 0, 0⟩]).pieces :=
  reachable_separation seedWorld ⟨⟨(3, 3), (2, 2), [(0, 0)], [(1, 1)]⟩, 4, 1, 1⟩
    stepStream (advance stepStream 8) [⟨1, 0, 0, 0⟩] rfl

/-- Counterexample to C5 as stated: after the reachable reset below, one legal
move to the left puts the player onto the goal cell, so a reachable world has
the player and the goal on the same cell. -/
theorem reachable_overlap :
    resetWorld bareWorld driftStream = some ⟨⟨(0, 1), (0, 0), [], []⟩, 4, 0, 0⟩ ∧
    (applyMoves ⟨⟨(0, 1), (0, 0), [], []⟩, 4, 0, 0⟩ [⟨0, 0, 1, 0⟩]).pieces.player =
      (applyMoves ⟨⟨(0, 1), (0, 0), [], []⟩, 4, 0, 0⟩ [⟨0, 0, 1, 0⟩]).pieces.goal := by
  constructor
  · decide
  · decide

/-- C2 (code bug).  With an all-zero draw stream on a 4x4 grid with no walls
and no holes, `reset` succeeds and places the player exactly on the goal cell
(0,0): `_filled_pos` never includes the goal in the occupancy set, so
`set_player` accepts the goal's cell. -/
theorem reset_player_on_goal :
    resetWorld bareWorld zeroStream = some ⟨⟨(0, 0), (0, 0), [], []⟩, 4, 0, 0⟩ := by
  decide

/-- Counterexample to C6 as stated: `reset` does not reseed the RNG, so two
successive resets of the same engine continue one stream and here produce
different placements. -/
theorem successive_resets_differ :
    resetTwice ⟨initPieces, 6, 0, 0⟩ ⟨fun i => i, 0⟩ =
      some (⟨(2, 3), (0, 1), [], []⟩, ⟨(0, 1), (4, 5), [], []⟩) ∧
    (⟨(2, 3), (0, 1), [], []⟩ : Pieces) ≠ ⟨(0, 1), (4, 5), [], []⟩ := by
  constructor
  · decide
  · decide

/-- C6 (amended).  With `use_random=False` the RNG is seeded once, at
construction: the whole episode (construction, reset, every step's state
tensor, reward and terminal flag) is therefore independent of the RNG state
the engine was constructed under, so two engines constructed identically and
driven by the same intents produce identical sequences. -/
theorem construction_seeding (size : ℕ) (holes walls : ℤ) (randSeed : ℕ)
    (prng : ℕ → ℕ → ℕ) (r1 r2 : Rng) (intents : List Intent) :
    episode size holes walls randSeed prng r1 intents =
      episode size holes walls randSeed prng r2 intents ∧
    (4 ≤ size → mkGridWorld size holes walls false randSeed prng r1 =
      .ok (⟨initPieces, size, walls, holes⟩, seedRng prng randSeed)) := by
  constructor
  · unfold episode mkGridWorld
    by_cases h : 4 ≤ size <;> simp [h]
  · intro h
    unfold mkGridWorld
    rw [if_pos h]
    rfl

/-- Witness for C6 (amended): two distinct ambient RNG states, same
construction, same intents — identical episodes, and the constructed engine
carries the freshly seeded stream. -/
theorem construction_seeding_witness :
    episode 6 1 1 42 (fun s i => s + i) zeroStream [⟨0, 1, 0, 0⟩] =
      episode 6 1 1 42 (fun s i => s + i) ⟨fun i => i, 5⟩ [⟨0, 1, 0, 0⟩] ∧
    mkGridWorld 6 1 1 false 42 (fun s i => s + i) zeroStream =
      .ok (⟨initPieces, 6, 1, 1⟩, seedRng (fun s i => s + i) 42) :=
  ⟨(construction_seeding 6 1 1 42 (fun s i => s + i) zeroStream ⟨fun i => i, 5⟩ [⟨0, 1, 0, 0⟩]).1,
   (construction_seeding 6 1 1 42 (fun s i => s + i) zeroStream ⟨fun i => i, 5⟩ [⟨0, 1, 0, 0⟩]).2
     (by omega)⟩

/-- Every position the allocator samples lies inside the grid. -/
lemma nthSample_mem_grid (size : ℕ) (hsz : 0 < size) (r : Rng) (j : ℕ) :
    0 ≤ (nthSample size r j).1 ∧ (nthSample size r j).1 < (size : ℤ) ∧
    0 ≤ (nthSample size r j).2 ∧ (nthSample size r j).2 < (size : ℤ) := by
  unfold nthSample
  dsimp only
  refine ⟨Int.natCast_nonneg _, ?_, Int.natCast_nonneg _, ?_⟩ <;>
    exact_mod_cast Nat.mod_lt _ hsz

/-- Counterexample to C8 as stated: a negative hole count is accepted —
construction and reset both succeed, placing no holes at all; and a wall
count of 32 on a 4x4 grid (capacity 16) is also accepted by the constructor —
the failure appears only when `reset` runs the allocator, as the generic
too-many-attempts exception, not as an immediate InvalidConfiguration
error. -/
theorem configuration_not_rejected :
    constructReset 4 (-1) 0 false 0 (fun _ i => i) zeroStream =
      some ⟨(2, 3), (0, 1), [], []⟩ ∧
    mkGridWorld 4 0 32 false 0 (fun _ _ => 0) zeroStream =
      .ok (⟨initPieces, 4, 32, 0⟩, seedRng (fun _ _ => 0) 0) ∧
    reset ⟨initPieces, 4, 32, 0⟩ zeroStream =
      .error "Too many attempts looking for empty position" :=
  ⟨by decide, rfl, rfl⟩

/-- C8 (amended).  The only construction-time configuration check is the
assertion `size >= 4`; negative wall or hole counts are silently treated as
zero placements (`range` of a negative count is empty); capacity is not
checked at construction, and an infeasible placement fails only when the
allocator runs during reset: as soon as the occupied set covers every cell of
the grid, the allocator raises the too-many-attempts error. -/
theorem config_validation (size : ℕ) (holes walls : ℤ) (randSeed : ℕ)
    (prng : ℕ → ℕ → ℕ) (r : Rng) :
    (size < 4 → mkGridWorld size holes walls false randSeed prng r =
      .error "Size needs to be >= 4") ∧
    (holes ≤ 0 → ∀ pc r2, addHoles size holes.toNat pc r2 = .ok (pc, r2)) ∧
    (walls ≤ 0 → ∀ pc r2, addWalls size walls.toNat pc r2 = .ok (pc, r2)) ∧
    (∀ pc r2, 0 < size →
      (∀ p : Pos, 0 ≤ p.1 → p.1 < (size : ℤ) → 0 ≤ p.2 → p.2 < (size : ℤ) →
        isEmptyPos pc p = false) →
      getEmptyPos pc size r2 = .error "Too many attempts looking for empty position") := by
  refine ⟨?_, ?_, ?_, ?_⟩
  · intro h
    unfold mkGridWorld
    rw [if_neg (by omega)]
  · intro h pc r2
    rw [Int.toNat_of_nonpos h]
    rfl
  · intro h pc r2
    rw [Int.toNat_of_nonpos h]
    rfl
  · intro pc r2 hsz hall
    refine (getEmptyPos_error_of_all pc size r2 ?_).1
    intro j _
    obtain ⟨h1, h2, h3, h4⟩ := nthSample_mem_grid size hsz r2 j
    exact hall _ h1 h2 h3 h4

/-- Witness for C8 (amended): `size = 3` is rejected by the constructor, and
on a fully walled 1x1 grid every in-grid cell is occupied, so the allocator
raises the too-many-attempts error. -/
theorem config_validation_witness :
    mkGridWorld 3 1 1 false 42 (fun s i => s + i) zeroStream =
      .error "Size needs to be >= 4" ∧
    getEmptyPos crowdedPieces 1 ⟨fun i => i, 3⟩ =
      .error "Too many attempts looking for empty position" :=
  ⟨(config_validation 3 1 1 42 (fun s i => s + i) zeroStream).1 (by omega),
   (config_validation 1 1 1 42 (fun s i => s + i) zeroStream).2.2.2 crowdedPieces
     ⟨fun i => i, 3⟩ (by omega)
     (fun p h1 h2 h3 h4 => by
       obtain ⟨p1, p2⟩ := p
       have e1 : p1 = 0 := by omega
       have e2 : p2 = 0 := by omega
       subst e1
       subst e2
       decide)⟩
